import Mathlib

/-!
Shallow embedding of the extraction engine of `extract_to_excel.py`
(pdf-to-excel-converter).  Python strings are modelled as Lean `String`,
Python lists as Lean `List`, regular-expression patterns for tracking ids
as boolean predicates on tokens (the code applies them via `re.match`,
i.e. prefix matching; a concrete predicate `match1Z` embeds the pattern
`1Z[A-Z0-9]{16}`).  The fallible `float` call in `parse_tabular_section`
is modelled with `Except`.  Python string primitives (`split`, `strip`,
`endswith`, ...) are re-implemented below by structural recursion over
character lists so that every definition evaluates inside the kernel.
-/

/-! ### Python string primitives -/

/-- Length in characters, Python `len(s)`. -/
def strLen (s : String) : Nat := s.data.length

/-- Python slice `s[:n]` for `0 ≤ n`. -/
def strTake (s : String) (n : Nat) : String := ⟨s.data.take n⟩

/-- Python `s.startswith(p)`. -/
def strStartsWith (s p : String) : Bool := p.data.isPrefixOf s.data

/-- Python `s.endswith(p)`. -/
def strEndsWith (s p : String) : Bool := p.data.isSuffixOf s.data

/-- Python `s.strip()`: drop leading and trailing whitespace. -/
def strTrim (s : String) : String :=
  ⟨((s.data.dropWhile Char.isWhitespace).reverse.dropWhile Char.isWhitespace).reverse⟩

/-- Python `c in s` for a single character. -/
def strContainsChar (s : String) (c : Char) : Bool := s.data.contains c

/-- Every character of `s` satisfies `p`. -/
def strAll (s : String) (p : Char → Bool) : Bool := s.data.all p

/-- Helper for `split_ws`: split a character list on whitespace runs,
accumulating the current (reversed) token. -/
def splitWSChars : List Char → List Char → List String
  | [], acc => if acc = [] then [] else [String.mk acc.reverse]
  | c :: rest, acc =>
    if c.isWhitespace then
      if acc = [] then splitWSChars rest []
      else String.mk acc.reverse :: splitWSChars rest []
    else splitWSChars rest (c :: acc)

/-- Python `s.split()` with no argument: split on runs of whitespace,
producing no empty tokens. -/
def split_ws (s : String) : List String := splitWSChars s.data []

/-- Python substring containment `needle in hay` over character lists. -/
def listContainsSub (hay needle : List Char) : Bool :=
  if needle.isPrefixOf hay then true
  else
    match hay with
    | [] => false
    | _ :: t => listContainsSub t needle

/-- Python substring containment `needle in hay` for strings. -/
def strContainsSub (hay needle : String) : Bool :=
  listContainsSub hay.data needle.data

/-- Python slice `s[:-n]`: for `n = 0` this is `s[:0] = ""`, otherwise the
first `len(s) - n` characters. -/
def pySliceNeg (s : String) (n : Nat) : String :=
  if n = 0 then "" else strTake s (strLen s - n)

/-- Python `sep.join(l)`. -/
def strJoinSep (sep : String) : List String → String
  | [] => ""
  | [x] => x
  | x :: y :: xs => x ++ sep ++ strJoinSep sep (y :: xs)

/-- Helper for `pySplitOn`, fuelled so that it evaluates by iota
reduction; the fuel is always instantiated to the length of the input. -/
def splitOnFuel (sep : List Char) : Nat → List Char → List Char → List (List Char)
  | _, [], acc => [acc.reverse]
  | 0, cs, acc => [acc.reverse ++ cs]
  | fuel + 1, c :: rest, acc =>
    if !sep.isEmpty && sep.isPrefixOf (c :: rest) then
      acc.reverse :: splitOnFuel sep fuel (List.drop sep.length (c :: rest)) []
    else splitOnFuel sep fuel rest (c :: acc)

/-- Python `s.split(sep)` for a non-empty separator. -/
def pySplitOn (s : String) (sep : String) : List String :=
  (splitOnFuel sep.data s.data.length s.data []).map String.mk

/-- Numeric value of a list of decimal digit characters. -/
def natOfDigits (cs : List Char) : Nat :=
  cs.foldl (fun a c => 10 * a + (c.toNat - 48)) 0

/-- ASCII lower-casing of one character (Python `str.lower()`). -/
def charLower (c : Char) : Char :=
  if c.isUpper then Char.ofNat (c.toNat + 32) else c

/-- Python `s.lower()`. -/
def strLower (s : String) : String := ⟨s.data.map charLower⟩

/-! ### Service vocabulary and customer/service splitting -/

/-- The loop of `split_customer_service` (lines 145-148): try the
vocabulary entries in order, taking the first entry that is a suffix of
the field. -/
def firstSuffixSplit (cs : String) : List String → String × String
  | [] => (cs, "")
  | sv :: rest =>
    if strEndsWith cs sv then (strTrim (pySliceNeg cs (strLen sv)), sv)
    else firstSuffixSplit cs rest

/-- `split_customer_service` (lines 141-150 of extract_to_excel.py). -/
def split_customer_service (customer_service : String) (service_types : List String) : String × String :=
  if customer_service = "" then ("", "")
  else firstSuffixSplit customer_service service_types

/-- Stable insertion (by descending length) used by `sort_service_types`. -/
def insertByLenDesc (x : String) : List String → List String
  | [] => [x]
  | y :: ys => if strLen y ≤ strLen x then x :: y :: ys else y :: insertByLenDesc x ys

/-- The final ordering step of `extract_service_types_from_pdf`
(line 135): `sorted(cleaned, key=len, reverse=True)`, a stable sort by
descending length. -/
def sort_service_types : List String → List String
  | [] => []
  | x :: xs => insertByLenDesc x (sort_service_types xs)

/-! ### Line parsing -/

/-- `extract_tracking` (lines 153-158): patterns in priority order, and
within one pattern the tokens in line order; the first match wins. -/
def extract_tracking : List String → List (String → Bool) → Option String
  | _, [] => none
  | parts, p :: ps =>
    match parts.find? p with
    | some t => some t
    | none => extract_tracking parts ps

/-- `extract_date_parts` (lines 161-169): collect the tokens of the window
of `num_parts` tokens after the time marker, stopping at the first token
that starts with a known tracking prefix (`1Z` or `HR`). -/
def extract_date_parts (parts : List String) (time_idx : Nat) (num_parts : Nat) : List String :=
  ((parts.drop (time_idx + 1)).take num_parts).takeWhile
    (fun t => !(strStartsWith t "1Z" || strStartsWith t "HR"))

/-- The date-token count of the vocabulary builder
(`extract_service_types_from_pdf`, lines 121-123): count the tokens of the
3-token window after the time marker that do not start with `1Z`
(no early stop, and `HR` is not excluded). -/
def builder_date_count (parts : List String) (time_idx : Nat) : Nat :=
  (((parts.drop (time_idx + 1)).take 3).filter (fun t => !strStartsWith t "1Z")).length

/-- `extract_weight` (lines 172-177). -/
def extract_weight (parts : List String) : String :=
  let lastTok := parts.getLastD ""
  if lastTok = "ManWt" ∨ lastTok = "Com" then
    let p2 := parts.getD (parts.length - 2) ""
    if 2 ≤ parts.length ∧ (strContainsSub p2 "lb" = true ∨ strContainsSub p2 "kg" = true ∨ p2 = "N/A") then
      p2 ++ " " ++ lastTok
    else "N/A"
  else lastTok

/-- A parsed line of a drop-off section (the dict built at lines 204-211). -/
structure PackageRecord where
  time : String
  pickupDate : String
  customer : String
  service : String
  tracking : String
  weight : String
deriving DecidableEq, Repr

/-- `parse_line_entry` (lines 180-211). -/
def parse_line_entry (line : String) (service_types : List String) (tracking_patterns : List (String → Bool)) : Option PackageRecord :=
  let parts := split_ws line
  if parts.length < 4 then none
  else
    match parts.findIdx? (fun p => p == "AM" || p == "PM") with
    | none => none
    | some time_idx =>
      match extract_tracking parts tracking_patterns with
      | none => none
      | some tracking =>
        let time := strJoinSep " " (parts.take (time_idx + 1))
        let date_parts := extract_date_parts parts time_idx 3
        let pickup_date := strJoinSep " " date_parts
        let weight := extract_weight parts
        let customer_start := time_idx + 1 + date_parts.length
        let customer_end := parts.indexOf tracking
        let customer :=
          if customer_start < customer_end then
            strJoinSep " " ((parts.take customer_end).drop customer_start)
          else ""
        let cs := split_customer_service customer service_types
        some ⟨time, pickup_date, cs.1, cs.2, tracking, weight⟩

/-- `re.match(r'1Z[A-Z0-9]{16}', part)`: the token starts with `1Z`
followed by at least 16 characters drawn from `A`-`Z` and `0`-`9`. -/
def match1Z (s : String) : Bool :=
  match s.data with
  | '1' :: 'Z' :: rest =>
    16 ≤ rest.length && (rest.take 16).all (fun c => (c.isUpper && c.isAlpha) || c.isDigit)
  | _ => false

/-- `parse_section` (lines 214-224), with the `re.findall` boundary
matching abstracted: given the list of matched regions (in document
order), parse every line of every region and keep the successful ones. -/
def parse_section (regions : List String) (service_types : List String) (tracking_patterns : List (String → Bool)) : List PackageRecord :=
  (regions.map (fun sec =>
    (pySplitOn sec "\n").filterMap
      (fun line => parse_line_entry line service_types tracking_patterns))).flatten

/-- The per-section processing of `main` (lines 335-343): each configured
section (matched regions plus tracking patterns) is parsed independently
with the shared vocabulary. -/
def process_sections (sections : List (List String × List (String → Bool))) (service_types : List String) : List (List PackageRecord) :=
  sections.map (fun sc => parse_section sc.1 service_types sc.2)

/-! ### Tabular summary parsing -/

/-- `re.match(r'^\d+\.\d+\.\d+\.\d+$', line)`: four non-empty all-digit
groups separated by dots. -/
def matchesNumericCode (s : String) : Bool :=
  match pySplitOn s "." with
  | [a, b, c, d] =>
    !a.data.isEmpty && strAll a Char.isDigit && !b.data.isEmpty && strAll b Char.isDigit &&
    !c.data.isEmpty && strAll c Char.isDigit && !d.data.isEmpty && strAll d Char.isDigit
  | _ => false

/-- A regex word character (`\w`). -/
def isWordChar (c : Char) : Bool := c.isAlphanum || c = '_'

/-- `re.match(r'^\(\w{2}-\w{2}\)', line)`: a prefix of the form
`(xx-yy)` with word characters. -/
def matchesBracketPair (s : String) : Bool :=
  match s.data with
  | '(' :: a :: b :: '-' :: c :: d :: ')' :: _ =>
    isWordChar a && isWordChar b && isWordChar c && isWordChar d
  | _ => false

/-- `re.match(r'^[\d.,]+$', line)`: non-empty, only digits, dots, commas. -/
def isNumDotComma (s : String) : Bool :=
  !s.data.isEmpty && strAll s (fun c => c.isDigit || c = '.' || c = ',')

/-- Python `s.replace(',', '')`. -/
def stripCommas (s : String) : String := ⟨s.data.filter (fun c => c ≠ ',')⟩

/-- Append an optional parsed row in front of the result of the rest of
the loop (the `data.append` of lines 264-275); an error from the rest of
the loop aborts everything, as a raised exception does. -/
def consRow {Row : Type} (r : Option Row) (rest : Except String (List Row)) : Except String (List Row) :=
  match rest with
  | .error e => .error e
  | .ok rows =>
    .ok (match r with
         | some row => row :: rows
         | none => rows)

/-- The skip tests at lines 244-250: an empty line, a `Total:` line, a
bare numeric code, or a bracketed two-letter pair is skipped. -/
def isSkippedLine (s : String) : Bool :=
  s == "" || strStartsWith s "Total:" || matchesNumericCode s || matchesBracketPair s

/-- The scanning loop of `parse_tabular_section` (lines 241-275), over the
lines of a matched summary block.  The final column-layout match and row
construction (line 262, a fixed regex producing a row dict) is abstracted
as the parameter `matchRow`; the weight-continuation merge evaluates
`float(next_val.replace(',', ''))`, which raises `ValueError` when the
comma-stripped string is empty — modelled by `Except.error`. -/
def parse_tabular_lines {Row : Type} (matchRow : String → Option Row) : List String → Except String (List Row)
  | [] => .ok []
  | [l] =>
    if isSkippedLine (strTrim l) then .ok []
    else consRow (matchRow (strTrim l)) (.ok [])
  | l :: nxt :: rest2 =>
    if isSkippedLine (strTrim l) then
      parse_tabular_lines matchRow (nxt :: rest2)
    else
      if isNumDotComma (strTrim nxt) then
        if strContainsChar (strTrim nxt) '.' then
          consRow (matchRow (strTrim l ++ " " ++ strTrim nxt ++ "lb"))
            (parse_tabular_lines matchRow rest2)
        else if (stripCommas (strTrim nxt)).data.isEmpty then
          .error "ValueError: could not convert string to float"
        else if natOfDigits (stripCommas (strTrim nxt)).data < 100000 then
          consRow (matchRow (strTrim l ++ " " ++ strTrim nxt ++ "lb"))
            (parse_tabular_lines matchRow rest2)
        else
          consRow (matchRow (strTrim l)) (parse_tabular_lines matchRow (nxt :: rest2))
      else
        consRow (matchRow (strTrim l)) (parse_tabular_lines matchRow (nxt :: rest2))
termination_by lines => lines.length
decreasing_by all_goals first
  | (simp; omega)
  | simp

/-! ### Date-range formatting -/

/-- The abbreviated month names recognized by `strptime`'s `%b`
(matched case-insensitively). -/
def monthAbbrevs : List String :=
  ["jan", "feb", "mar", "apr", "may", "jun", "jul", "aug", "sep", "oct", "nov", "dec"]

/-- Gregorian leap year. -/
def isLeapYear (y : Nat) : Bool := y % 4 == 0 && (y % 100 != 0 || y % 400 == 0)

/-- Days in a month, as validated by `datetime`. -/
def daysInMonth (y m : Nat) : Nat :=
  if m = 2 then (if isLeapYear y then 29 else 28)
  else if m = 4 ∨ m = 6 ∨ m = 9 ∨ m = 11 then 30
  else 31

/-- `datetime.datetime.strptime(s, '%d %b %Y')` (line 83): a 1-2 digit
day in 1..31, an abbreviated month name (case-insensitive), a 4-digit
year, separated by whitespace; `datetime` further requires a positive
year and a day that exists in the month.  Returns `(day, month, year)` or
`none` for `ValueError`. -/
def strptime_d_b_Y (s : String) : Option (Nat × Nat × Nat) :=
  match split_ws s with
  | [dTok, mTok, yTok] =>
    if (strLen dTok = 1 ∨ strLen dTok = 2) ∧ strAll dTok Char.isDigit = true then
      match monthAbbrevs.findIdx? (fun a => a == strLower mTok) with
      | some mi =>
        if strLen yTok = 4 ∧ strAll yTok Char.isDigit = true then
          if 1 ≤ natOfDigits dTok.data ∧ natOfDigits dTok.data ≤ 31 ∧
             1 ≤ natOfDigits yTok.data ∧
             natOfDigits dTok.data ≤ daysInMonth (natOfDigits yTok.data) (mi + 1) then
            some (natOfDigits dTok.data, mi + 1, natOfDigits yTok.data)
          else none
        else none
      | none => none
    else none
  | _ => none

/-- Two-digit zero padding, as in `strftime`'s `%d` and `%m`. -/
def pad2 (n : Nat) : String := if n < 10 then "0" ++ toString n else toString n

/-- `date_obj.strftime('%d-%m-%Y')` (line 84). -/
def strftime_dmY (d m y : Nat) : String :=
  pad2 d ++ "-" ++ pad2 m ++ "-" ++ toString y

/-- `format_date_range` (lines 74-87): split on `' - '`; anything other
than exactly two parts, or a `strptime` failure on either part, returns
the input unchanged. -/
def format_date_range (date_range_str : String) : String :=
  match pySplitOn date_range_str " - " with
  | [p1, p2] =>
    match strptime_d_b_Y (strTrim p1), strptime_d_b_Y (strTrim p2) with
    | some (d1, m1, y1), some (d2, m2, y2) =>
      strftime_dmY d1 m1 y1 ++ " to " ++ strftime_dmY d2 m2 y2
    | _, _ => date_range_str
  | _ => date_range_str

/-! ### Helper lemmas -/

theorem firstSuffixSplit_no_match (cs : String) (vocab : List String)
    (h : ∀ u ∈ vocab, strEndsWith cs u = false) : firstSuffixSplit cs vocab = (cs, "") := by
  induction vocab with
  | nil => rfl
  | cons v vs ih =>
    have hv := h v (by simp)
    simp only [firstSuffixSplit, hv, Bool.false_eq_true, if_false]
    exact ih (fun u hu => h u (by simp [hu]))

theorem firstSuffixSplit_append (cs v : String) (l₁ l₂ : List String)
    (h : ∀ u ∈ l₁, strEndsWith cs u = false) (hv : strEndsWith cs v = true) :
    firstSuffixSplit cs (l₁ ++ v :: l₂) = (strTrim (pySliceNeg cs (strLen v)), v) := by
  induction l₁ with
  | nil => simp [firstSuffixSplit, hv]
  | cons u us ih =>
    have hu := h u (by simp)
    simp only [List.cons_append, firstSuffixSplit, hu, Bool.false_eq_true, if_false]
    exact ih (fun x hx => h x (by simp [hx]))

theorem firstSuffixSplit_first (cs : String) (vocab : List String) (k : Nat)
    (hk : k < vocab.length) (hmatch : strEndsWith cs (vocab.getD k "") = true)
    (hprior : ∀ j, j < k → strEndsWith cs (vocab.getD j "") = false) :
    (firstSuffixSplit cs vocab).2 = vocab.getD k "" := by
  induction vocab generalizing k with
  | nil => simp at hk
  | cons v vs ih =>
    cases k with
    | zero =>
      simp only [List.getD_cons_zero] at hmatch ⊢
      simp [firstSuffixSplit, hmatch]
    | succ k =>
      have h0 := hprior 0 (Nat.succ_pos k)
      simp only [List.getD_cons_zero] at h0
      simp only [List.getD_cons_succ] at hmatch ⊢
      simp only [firstSuffixSplit, h0, Bool.false_eq_true, if_false]
      refine ih k (by simpa using hk) hmatch (fun j hj => ?_)
      have := hprior (j + 1) (by omega)
      simpa using this

/-- Evaluation of `parse_line_entry` on the spec scenario line with the
tracking pattern `1Z[A-Z0-9]{16}` and an arbitrary vocabulary: the date
heuristic collects the full 3-token window `01/05/2024 Acme Corp`, so the
customer+service field reduces to the single token `Ground`. -/
theorem parse_line_entry_scenario_eval (vocab : List String) :
    parse_line_entry "10:15 AM 01/05/2024 Acme Corp Ground 1Z999AA10123456784 2.5lb" vocab [match1Z] =
      some ⟨"10:15 AM", "01/05/2024 Acme Corp", (split_customer_service "Ground" vocab).1,
            (split_customer_service "Ground" vocab).2, "1Z999AA10123456784", "2.5lb"⟩ := rfl

/-! ### Claims -/

/-- C1, counterexample: on the scenario line
`10:15 AM 01/05/2024 Acme Corp Ground 1Z999AA10123456784 2.5lb` with
vocabulary `["Ground"]`, `parse_line_entry` does NOT return the record
claimed by the spec (Pickup Date `01/05/2024`, Customer `Acme Corp`). -/
theorem c1_counterexample :
    parse_line_entry "10:15 AM 01/05/2024 Acme Corp Ground 1Z999AA10123456784 2.5lb" ["Ground"] [match1Z] ≠
      some ⟨"10:15 AM", "01/05/2024", "Acme Corp", "Ground", "1Z999AA10123456784", "2.5lb"⟩ := by
  decide

/-- C1 (amended): on the scenario line, for any vocabulary containing
`"Ground"` whose earlier entries are not suffixes of `"Ground"`,
`parse_line_entry` returns Time `10:15 AM`, Pickup Date
`01/05/2024 Acme Corp` (the 3-token date window swallows `Acme Corp`),
Customer `""`, Service `Ground`, Tracking `1Z999AA10123456784` and
Weight `2.5lb`. -/
theorem c1_amended_scenario (l₁ l₂ : List String)
    (h : ∀ u ∈ l₁, strEndsWith "Ground" u = false) :
    parse_line_entry "10:15 AM 01/05/2024 Acme Corp Ground 1Z999AA10123456784 2.5lb"
        (l₁ ++ "Ground" :: l₂) [match1Z] =
      some ⟨"10:15 AM", "01/05/2024 Acme Corp", "", "Ground", "1Z999AA10123456784", "2.5lb"⟩ := by
  rw [parse_line_entry_scenario_eval]
  have hsp : split_customer_service "Ground" (l₁ ++ "Ground" :: l₂) = ("", "Ground") := by
    rw [split_customer_service, if_neg (by decide)]
    rw [firstSuffixSplit_append "Ground" "Ground" l₁ l₂ h (by decide)]
    decide
  rw [hsp]

/-- C1 witness: the amended scenario instantiated at the one-entry
vocabulary `["Ground"]`. -/
theorem c1_witness :
    parse_line_entry "10:15 AM 01/05/2024 Acme Corp Ground 1Z999AA10123456784 2.5lb" ["Ground"] [match1Z] =
      some ⟨"10:15 AM", "01/05/2024 Acme Corp", "", "Ground", "1Z999AA10123456784", "2.5lb"⟩ :=
  c1_amended_scenario [] [] (by simp)

/-- C3: with the vocabulary `{"Ground", "Ground Express"}` in the order
produced by the builder (descending length, i.e.
`["Ground Express", "Ground"]`), every field ending in `Ground Express`
splits with Service `Ground Express`; in general the vocabulary entries
are tested in list order and the first suffix match is taken. -/
theorem c3_longest_match (s : String) (vocab : List String) :
    sort_service_types ["Ground", "Ground Express"] = ["Ground Express", "Ground"] ∧
    (strEndsWith s "Ground Express" = true →
      (split_customer_service s ["Ground Express", "Ground"]).2 = "Ground Express") ∧
    (∀ k, s ≠ "" → k < vocab.length → strEndsWith s (vocab.getD k "") = true →
      (∀ j, j < k → strEndsWith s (vocab.getD j "") = false) →
      (split_customer_service s vocab).2 = vocab.getD k "") := by
  refine ⟨by decide, ?_, ?_⟩
  · intro hge
    have hne : s ≠ "" := by
      intro hs
      rw [hs] at hge
      exact absurd hge (by decide)
    rw [split_customer_service, if_neg hne]
    have := firstSuffixSplit_first s ["Ground Express", "Ground"] 0 (by decide)
      (by simpa using hge) (fun j hj => absurd hj (Nat.not_lt_zero j))
    simpa using this
  · intro k hne hk hmatch hprior
    rw [split_customer_service, if_neg hne]
    exact firstSuffixSplit_first s vocab k hk hmatch hprior

/-- C3 witness: the field `Acme Ground Express` splits with Service
`Ground Express`. -/
theorem c3_witness :
    (split_customer_service "Acme Ground Express" ["Ground Express", "Ground"]).2 = "Ground Express" :=
  (c3_longest_match "Acme Ground Express" []).2.1 (by decide)

/-- C10: when no vocabulary entry is a suffix of a non-empty
customer+service field, `split_customer_service` returns the whole field
as Customer and Service `""`; an empty field gives `("", "")` for every
vocabulary. -/
theorem c10_split_no_match (field : String) (vocab : List String) :
    (field ≠ "" → (∀ v ∈ vocab, strEndsWith field v = false) →
      split_customer_service field vocab = (field, "")) ∧
    split_customer_service "" vocab = ("", "") := by
  constructor
  · intro hne hno
    rw [split_customer_service, if_neg hne]
    exact firstSuffixSplit_no_match field vocab hno
  · rfl

/-- C10 witness: `Acme` with vocabulary `["Ground"]` is returned whole. -/
theorem c10_witness : split_customer_service "Acme" ["Ground"] = ("Acme", "") :=
  (c10_split_no_match "Acme" ["Ground"]).1 (by decide) (by decide)

/-- C2 (code-bug evidence): inside a matched summary block, the data line
`Domestic` followed by the look-ahead line `","` — which consists only of
digits, dots and commas — drives the weight-continuation merge into
`float("")`, raising `ValueError`, for every column matcher: the loop is
not total on such block content. -/
theorem c2_merge_step_raises {Row : Type} (matchRow : String → Option Row) :
    parse_tabular_lines matchRow ["Domestic", ","] =
      Except.error "ValueError: could not convert string to float" := by
  simp +decide [parse_tabular_lines]

/-- C4 counterexample: for the data line `Domestic` followed by `","`
(only digits, dots and commas, no decimal point, no numeric value), the
loop neither merges nor advances past the line — it raises instead of
returning, contradicting the claimed dichotomy. -/
theorem c4_counterexample :
    parse_tabular_lines (fun _ => (none : Option Unit)) ["Domestic", ","] =
        Except.error "ValueError: could not convert string to float" ∧
    parse_tabular_lines (fun _ => (none : Option Unit)) ["Domestic", ","] ≠ Except.ok [] := by
  constructor
  · simp +decide [parse_tabular_lines]
  · simp +decide [parse_tabular_lines]

/-- C4 (amended): for a non-skipped data line followed by a look-ahead
line of digits, dots and commas, the lines merge (follower appended with
an `lb` suffix, scan advancing two lines) exactly when the follower
contains a decimal point or its comma-stripped form is non-empty with
numeric value below 100000; when the follower has no decimal point and
its comma-stripped value is at least 100000 no merge happens, the scan
advances one line and the numeric line is evaluated independently (a
follower whose comma-stripped form is empty instead raises, see the
counterexample).  Concretely, `Domestic`/`1500` merge into
`Domestic 1500lb` and `Domestic`/`250000` do not merge. -/
theorem c4_merge_threshold {Row : Type} (M : String → Option Row) (l f : String) (rest : List String)
    (hdata : isSkippedLine (strTrim l) = false)
    (hnum : isNumDotComma (strTrim f) = true) :
    ((strContainsChar (strTrim f) '.' = true ∨
        ((stripCommas (strTrim f)).data ≠ [] ∧ natOfDigits (stripCommas (strTrim f)).data < 100000)) →
      parse_tabular_lines M (l :: f :: rest) =
        consRow (M (strTrim l ++ " " ++ strTrim f ++ "lb")) (parse_tabular_lines M rest)) ∧
    ((strContainsChar (strTrim f) '.' = false ∧ (stripCommas (strTrim f)).data ≠ [] ∧
        ¬ natOfDigits (stripCommas (strTrim f)).data < 100000) →
      parse_tabular_lines M (l :: f :: rest) =
        consRow (M (strTrim l)) (parse_tabular_lines M (f :: rest))) ∧
    parse_tabular_lines M ["Domestic", "1500"] = consRow (M "Domestic 1500lb") (Except.ok []) ∧
    parse_tabular_lines M ["Domestic", "250000"] =
      consRow (M "Domestic") (consRow (M "250000") (Except.ok [])) := by
  refine ⟨?_, ?_, ?_, ?_⟩
  · intro hcase
    rcases hcase with hdot | ⟨hne, hlt⟩
    · simp only [parse_tabular_lines, hdata, hnum, hdot, Bool.false_eq_true, if_false, if_true]
    · have hne' : (stripCommas (strTrim f)).data.isEmpty = false := by
        simpa using hne
      cases hdot : strContainsChar (strTrim f) '.' with
      | true =>
        simp only [parse_tabular_lines, hdata, hnum, hdot, Bool.false_eq_true, if_false, if_true]
      | false =>
        simp only [parse_tabular_lines, hdata, hnum, hdot, hne', Bool.false_eq_true, if_false,
          if_true, if_pos hlt]
  · intro hcase
    rcases hcase with ⟨hdot, hne, hge⟩
    have hne' : (stripCommas (strTrim f)).data.isEmpty = false := by simpa using hne
    simp only [parse_tabular_lines, hdata, hnum, hdot, hne', Bool.false_eq_true, if_false,
      if_true, if_neg hge]
  · have h1 : strTrim "Domestic" = "Domestic" := by decide
    have h2 : strTrim "1500" = "1500" := by decide
    have h3 : "Domestic" ++ " " ++ "1500" ++ "lb" = "Domestic 1500lb" := by decide
    simp +decide [parse_tabular_lines, h1, h2, h3]
  · have h1 : strTrim "Domestic" = "Domestic" := by decide
    have h2 : strTrim "250000" = "250000" := by decide
    simp +decide [parse_tabular_lines, h1, h2]

/-- C4 witness: the merge branch of the amended theorem instantiated at
`Domestic` followed by `1,500` (comma-stripped value 1500 < 100000). -/
theorem c4_witness :
    parse_tabular_lines (fun s => (some s : Option String)) ["Domestic", "1,500"] =
      Except.ok ["Domestic 1,500lb"] := by
  have h := (c4_merge_threshold (fun s => (some s : Option String)) "Domestic" "1,500" []
    (by decide) (by decide)).1 (Or.inr ⟨by decide, by decide⟩)
  rw [h]
  have h1 : strTrim "Domestic" = "Domestic" := by decide
  have h2 : strTrim "1,500" = "1,500" := by decide
  have h3 : "Domestic" ++ " " ++ "1,500" ++ "lb" = "Domestic 1,500lb" := by decide
  simp [parse_tabular_lines, consRow, h1, h2, h3]

theorem extract_tracking_eq_none_iff (parts : List String) (pats : List (String → Bool)) :
    extract_tracking parts pats = none ↔ ∀ p ∈ pats, ∀ t ∈ parts, p t = false := by
  induction pats with
  | nil => simp [extract_tracking]
  | cons p ps ih =>
    cases hf : parts.find? p with
    | some t =>
      have hpt := List.find?_some hf
      have hmem := List.mem_of_find?_eq_some hf
      simp only [extract_tracking, hf]
      constructor
      · intro h; exact absurd h (by simp)
      · intro h
        have := h p (by simp) t hmem
        rw [hpt] at this
        exact absurd this (by simp)
    | none =>
      have hnone := List.find?_eq_none.mp hf
      simp only [extract_tracking, hf]
      rw [ih]
      constructor
      · intro h q hq t ht
        rcases List.mem_cons.mp hq with rfl | hq'
        · have := hnone t ht
          simpa using this
        · exact h q hq' t ht
      · intro h q hq t ht
        exact h q (by simp [hq]) t ht

theorem find?_first_spec (p : String → Bool) (parts : List String) (t : String)
    (h : parts.find? p = some t) :
    ∃ n, n < parts.length ∧ parts.getD n "" = t ∧
      ∀ m, m < n → p (parts.getD m "") = false := by
  induction parts with
  | nil => simp at h
  | cons x xs ih =>
    cases hx : p x with
    | true =>
      rw [List.find?_cons_of_pos _ hx] at h
      obtain rfl : x = t := by simpa using h
      exact ⟨0, by simp, by simp, fun m hm => absurd hm (Nat.not_lt_zero m)⟩
    | false =>
      rw [List.find?_cons_of_neg _ (by simp [hx])] at h
      obtain ⟨n, hn, hg, hfirst⟩ := ih h
      refine ⟨n + 1, by simpa using hn, by simpa using hg, ?_⟩
      intro m hm
      cases m with
      | zero => simpa using hx
      | succ m => simpa using hfirst m (by omega)

/-- C5: `parse_line_entry` returns `none` exactly when the line has fewer
than 4 whitespace tokens, or no token equal to `AM` or `PM`, or no token
matching any of the section's tracking patterns; otherwise it returns a
record. -/
theorem c5_no_match_conditions (line : String) (vocab : List String) (pats : List (String → Bool)) :
    parse_line_entry line vocab pats = none ↔
      ((split_ws line).length < 4 ∨
       (∀ t ∈ split_ws line, t ≠ "AM" ∧ t ≠ "PM") ∨
       (∀ p ∈ pats, ∀ t ∈ split_ws line, p t = false)) := by
  simp only [parse_line_entry]
  by_cases hlen : (split_ws line).length < 4
  · simp [hlen]
  · rw [if_neg hlen]
    cases hidx : (split_ws line).findIdx? (fun p => p == "AM" || p == "PM") with
    | none =>
      have hall := List.findIdx?_eq_none_iff.mp hidx
      constructor
      · intro _
        refine Or.inr (Or.inl ?_)
        intro t ht
        have := hall t ht
        constructor <;> (intro he; rw [he] at this; simp at this)
      · intro _; rfl
    | some ti =>
      cases htr : extract_tracking (split_ws line) pats with
      | none =>
        constructor
        · intro _
          exact Or.inr (Or.inr ((extract_tracking_eq_none_iff _ _).mp htr))
        · intro _; rfl
      | some t =>
        constructor
        · intro h; exact absurd h (by simp)
        · intro h
          rcases h with h | h | h
          · exact absurd h hlen
          · have hn : (split_ws line).findIdx? (fun p => p == "AM" || p == "PM") = none := by
              apply List.findIdx?_eq_none_iff.mpr
              intro x hx
              have hx2 := h x hx
              simp [hx2.1, hx2.2]
            rw [hn] at hidx
            exact absurd hidx (by simp)
          · have hn := (extract_tracking_eq_none_iff _ _).mpr h
            rw [hn] at htr
            exact absurd htr (by simp)

/-- C6: `extract_tracking` returns `none` exactly when no token matches
any pattern; when it returns a token, that token matches some pattern `k`,
no token at all matches an earlier pattern, and the token is the first in
line order matching pattern `k`. -/
theorem c6_tracking_priority (parts : List String) (pats : List (String → Bool)) :
    (extract_tracking parts pats = none ↔ ∀ p ∈ pats, ∀ t ∈ parts, p t = false) ∧
    (∀ t, extract_tracking parts pats = some t →
      ∃ k, k < pats.length ∧ t ∈ parts ∧ pats.getD k (fun _ => false) t = true ∧
        (∀ j, j < k → ∀ u ∈ parts, pats.getD j (fun _ => false) u = false) ∧
        (∃ n, n < parts.length ∧ parts.getD n "" = t ∧
          ∀ m, m < n → pats.getD k (fun _ => false) (parts.getD m "") = false)) := by
  refine ⟨extract_tracking_eq_none_iff parts pats, ?_⟩
  induction pats with
  | nil => intro t ht; simp [extract_tracking] at ht
  | cons p ps ih =>
    intro t ht
    simp only [extract_tracking] at ht
    cases hf : parts.find? p with
    | some u =>
      rw [hf] at ht
      have hut : u = t := by simpa using ht
      subst hut
      obtain ⟨n, hn, hg, hfirst⟩ := find?_first_spec p parts u hf
      exact ⟨0, by simp, List.mem_of_find?_eq_some hf, by simpa using List.find?_some hf,
        fun j hj => absurd hj (Nat.not_lt_zero j), n, hn, hg, by simpa using hfirst⟩
    | none =>
      rw [hf] at ht
      obtain ⟨k, hk, hmem, hpk, hprior, n, hn, hg, hfirst⟩ := ih t ht
      refine ⟨k + 1, by simpa using hk, hmem, by simpa using hpk, ?_, n, hn, hg,
        by simpa using hfirst⟩
      intro j hj
      cases j with
      | zero =>
        intro u hu
        simpa using List.find?_eq_none.mp hf u hu
      | succ j =>
        intro u hu
        simpa using hprior j (by omega) u hu

/-- C6 witness: with no patterns at all, no token matches, and the
characterization yields `none` on a concrete token list. -/
theorem c6_witness : extract_tracking ["ab"] [] = none :=
  (c6_tracking_priority ["ab"] []).1.mpr (by simp)

theorem dateWindow_all_eq (w : List String)
    (h : ∀ t ∈ w, strStartsWith t "1Z" = false ∧ strStartsWith t "HR" = false) :
    (w.filter (fun t => !strStartsWith t "1Z")).length =
      (w.takeWhile (fun t => !(strStartsWith t "1Z" || strStartsWith t "HR"))).length := by
  induction w with
  | nil => rfl
  | cons t ts ih =>
    have ht := h t (by simp)
    rw [List.filter_cons_of_pos (by simp [ht.1]), List.takeWhile_cons_of_pos (by simp [ht.1, ht.2])]
    simp only [List.length_cons]
    rw [ih (fun x hx => h x (by simp [hx]))]

/-- C7 counterexample: with the token `HRQ` right after the time marker,
the parser's date heuristic stops immediately (0 date tokens) while the
vocabulary builder counts all three window tokens (3), so the two date
counts differ. -/
theorem c7_counterexample :
    ¬ (builder_date_count ["A", "AM", "HRQ", "B", "C"] 1 =
        (extract_date_parts ["A", "AM", "HRQ", "B", "C"] 1 3).length) := by
  decide

/-- C7 (amended): the builder counts the window tokens not starting with
`1Z` (no early stop, `HR` not excluded) while the parser takes the
initial run stopped at the first `1Z`/`HR` token; the two counts agree
whenever no token of the 3-token window after the time marker starts
with `1Z` or `HR`. -/
theorem c7_date_count_agree (parts : List String) (time_idx : Nat)
    (h : ∀ t ∈ (parts.drop (time_idx + 1)).take 3,
      strStartsWith t "1Z" = false ∧ strStartsWith t "HR" = false) :
    builder_date_count parts time_idx = (extract_date_parts parts time_idx 3).length := by
  unfold builder_date_count extract_date_parts
  exact dateWindow_all_eq _ h

/-- C7 witness: a window of plain date/word tokens gives equal counts. -/
theorem c7_witness :
    builder_date_count ["A", "AM", "01/05", "B", "C"] 1 =
      (extract_date_parts ["A", "AM", "01/05", "B", "C"] 1 3).length :=
  c7_date_count_agree ["A", "AM", "01/05", "B", "C"] 1 (by decide)

/-- C5 witness: a line with fewer than 4 tokens is rejected. -/
theorem c5_witness : parse_line_entry "no tokens" [] [] = none :=
  (c5_no_match_conditions "no tokens" [] []).mpr (Or.inl (by decide))

/-- C8: `format_date_range` maps `01 Jan 2024 - 05 Jan 2024` to
`01-01-2024 to 05-01-2024`, and returns any input unchanged when
splitting on `' - '` does not give exactly two parts or either part
fails date parsing. -/
theorem c8_format_date_range (s : String) :
    format_date_range "01 Jan 2024 - 05 Jan 2024" = "01-01-2024 to 05-01-2024" ∧
    (((pySplitOn s " - ").length ≠ 2 ∨
      ∃ p ∈ pySplitOn s " - ", strptime_d_b_Y (strTrim p) = none) →
      format_date_range s = s) := by
  constructor
  · decide
  · intro h
    unfold format_date_range
    split
    · rename_i p1 p2 heq
      split
      · rename_i d1 m1 y1 d2 m2 y2 h1 h2
        exfalso
        rcases h with hlen | ⟨p, hp, hnone⟩
        · rw [heq] at hlen
          simp at hlen
        · rw [heq] at hp
          have hp2 : p = p1 ∨ p = p2 := by simpa using hp
          rcases hp2 with rfl | rfl
          · rw [hnone] at h1
            exact absurd h1 (by simp)
          · rw [hnone] at h2
            exact absurd h2 (by simp)
      · rfl
    · rfl

/-- C8 witness: a string with no `' - '` separator is returned
unchanged. -/
theorem c8_witness : format_date_range "hello" = "hello" :=
  (c8_format_date_range "hello").2 (Or.inl (by decide))

/-- C9: a section whose boundary pattern has no matches yields the empty
list (not an error); matched regions contribute their parsed records in
document order; and a section with no matches leaves every other
configured section's result unchanged. -/
theorem c9_empty_section (v : List String) (p : List (String → Bool))
    (ms₁ ms₂ : List String) (cfgs : List (List String × List (String → Bool))) :
    parse_section [] v p = [] ∧
    parse_section (ms₁ ++ ms₂) v p = parse_section ms₁ v p ++ parse_section ms₂ v p ∧
    process_sections (([], p) :: cfgs) v = [] :: process_sections cfgs v := by
  refine ⟨rfl, ?_, ?_⟩
  · simp [parse_section]
  · simp [process_sections, parse_section]
